import Mathlib

/-!
Verification of the safetensors-inspector header-parsing and
metadata-classification engine (`src/core/parse.ts`, `src/core/schema.ts`).

The TypeScript source is shallowly embedded: JS strings are Lean `String`s
(with ASCII-faithful helpers over their character lists, since the inputs of
interest are ASCII), JS objects whose insertion order matters are association
lists, JS numbers in parsed JSON are modelled as `Int` (header shapes, offsets
and tag counts are integers), `parseFloat` results as exact rationals (the
claims about float fields concern only set-vs-unset, not rounding), and the
opaque JS builtins `JSON.parse` / `TextDecoder ∘ JSON.parse` are abstract
function parameters, so every theorem quantifying over them holds for any
parser behaviour.
-/

deriving instance DecidableEq for Except

namespace SafetensorsInspector

/-! ## JS primitive helpers -/

/-- Character-list version of JS `String.prototype.includes` (substring test). -/
def listContainsSub : List Char → List Char → Bool
  | [], pat => pat.isPrefixOf []
  | l@(_ :: rest), pat => pat.isPrefixOf l || listContainsSub rest pat

/-- JS `haystack.includes(needle)`. -/
def jsIncludes (s sub : String) : Bool := listContainsSub s.data sub.data

/-- JS `s.startsWith(pat)`. -/
def jsStartsWith (s pat : String) : Bool := pat.data.isPrefixOf s.data

/-- JS `s.toLowerCase()` restricted to ASCII (the inputs of interest). -/
def jsToLower (s : String) : String := ⟨s.data.map Char.toLower⟩

/-- JS whitespace recognised when number parsing skips a leading run
(space, tab, LF, VT, FF, CR). -/
def jsWhitespace (c : Char) : Bool :=
  c.toNat == 32 || c.toNat == 9 || c.toNat == 10 || c.toNat == 11 ||
  c.toNat == 12 || c.toNat == 13

def isDecDigit (c : Char) : Bool := '0' ≤ c && c ≤ '9'

def isHexDigit (c : Char) : Bool :=
  isDecDigit c || ('a' ≤ c && c ≤ 'f') || ('A' ≤ c && c ≤ 'F')

def digitVal (c : Char) : Nat :=
  if isDecDigit c then c.toNat - '0'.toNat
  else if 'a' ≤ c && c ≤ 'f' then c.toNat - 'a'.toNat + 10
  else if 'A' ≤ c && c ≤ 'F' then c.toNat - 'A'.toNat + 10
  else 0

def natOfDigits (base : Nat) (ds : List Char) : Nat :=
  ds.foldl (fun acc c => acc * base + digitVal c) 0

/-- JS `parseInt(s)` with no radix argument: skip whitespace, optional sign,
`0x`/`0X` switches to hexadecimal, longest digit run, `NaN` (= `none`) when
no digit is found.  Values are exact (JS doubles are exact below 2^53, which
covers every metadata field at issue). -/
def jsParseInt (s : String) : Option Int :=
  let t := s.data.dropWhile jsWhitespace
  let sign : Int := match t with | '-' :: _ => -1 | _ => 1
  let t := match t with | '-' :: r => r | '+' :: r => r | _ => t
  match t with
  | '0' :: x :: r =>
    if x == 'x' || x == 'X' then
      let ds := r.takeWhile isHexDigit
      if ds.isEmpty then none else some (sign * (natOfDigits 16 ds : Int))
    else
      let ds := t.takeWhile isDecDigit
      if ds.isEmpty then none else some (sign * (natOfDigits 10 ds : Int))
  | _ =>
    let ds := t.takeWhile isDecDigit
    if ds.isEmpty then none else some (sign * (natOfDigits 10 ds : Int))

/-- A JS number that `parseFloat` can produce (`NaN`, i.e. failure, is the
`none` of the surrounding `Option`).  Finite values are exact rationals. -/
inductive JsNum where
  | finite (q : Rat)
  | posInf
  | negInf
deriving DecidableEq

/-- JS `parseFloat(s)`: skip whitespace, optional sign, `Infinity`, else the
longest decimal-literal work (digits, optional fraction, optional exponent);
`none` when no digit is found. -/
def jsParseFloat (s : String) : Option JsNum :=
  let t := s.data.dropWhile jsWhitespace
  let neg : Bool := match t with | '-' :: _ => true | _ => false
  let t := match t with | '-' :: r => r | '+' :: r => r | _ => t
  if "Infinity".data.isPrefixOf t then
    some (if neg then .negInf else .posInf)
  else
    let ip := t.takeWhile isDecDigit
    let t2 := t.drop ip.length
    let fp := match t2 with
      | '.' :: r => r.takeWhile isDecDigit
      | _ => []
    let t3 := match t2 with
      | '.' :: r => r.dropWhile isDecDigit
      | _ => t2
    if ip.isEmpty && fp.isEmpty then none
    else
      let mantissa : Rat :=
        (natOfDigits 10 ip : Rat) + (natOfDigits 10 fp : Rat) / ((10 : Rat) ^ fp.length)
      let expVal : Int := match t3 with
        | e :: r =>
          if e == 'e' || e == 'E' then
            let esgn : Int := match r with | '-' :: _ => -1 | _ => 1
            let r2 := match r with | '-' :: rr => rr | '+' :: rr => rr | _ => r
            let eds := r2.takeWhile isDecDigit
            if eds.isEmpty then 0 else esgn * (natOfDigits 10 eds : Int)
          else 0
        | [] => 0
      some (.finite ((if neg then (-1 : Rat) else 1) * mantissa * (10 : Rat) ^ expVal))

/-- JS object key assignment `o[k] = v` on an insertion-ordered association
list: an existing key keeps its position and gets the new value, a fresh key
is appended. -/
def upsert {κ β : Type} [BEq κ] : List (κ × β) → κ → β → List (κ × β)
  | [], k, v => [(k, v)]
  | (k0, v0) :: rest, k, v =>
    if k0 == k then (k0, v) :: rest else (k0, v0) :: upsert rest k v

/-- JS `Object.assign(target, source)` over association lists. -/
def jsAssign {κ β : Type} [BEq κ] (target source : List (κ × β)) : List (κ × β) :=
  source.foldl (fun acc e => upsert acc e.1 e.2) target

/-- JS `Set.prototype.add` then `Array.from`: first-seen insertion order,
each element once. -/
def addIfAbsent {α : Type} [DecidableEq α] (l : List α) (x : α) : List α :=
  if x ∈ l then l else l ++ [x]

def distinctFirstSeen {α : Type} [DecidableEq α] (l : List α) : List α :=
  l.foldl addIfAbsent []

/-- JS `arr.slice(0, stop)` (a negative `stop` counts from the end). -/
def jsSlice {α : Type} (l : List α) (stop : Int) : List α :=
  if stop < 0 then l.take ((l.length : Int) + stop).toNat else l.take stop.toNat

/-- Stable insertion of `x` into a descending-by-`key` list: `x` goes after
every element whose key is ≥ its own, as JS's stable `sort((a,b) => b - a)`
places it. -/
def insertByDesc {α : Type} (key : α → Int) (x : α) : List α → List α
  | [] => [x]
  | y :: ys => if key y < key x then x :: y :: ys else y :: insertByDesc key x ys

/-- Stable descending sort by an integer key (observationally equal to JS
`sort((a, b) => keyB - keyA)`, which is stable). -/
def sortByDesc {α : Type} (key : α → Int) (l : List α) : List α :=
  l.foldl (fun acc x => insertByDesc key x acc) []

/-! ## JSON values

JSON numbers are modelled as `Int`: every numeric literal the claims exercise
(shapes, offsets, tag counts) is an integer. -/

inductive Json where
  | null
  | bool (b : Bool)
  | num (n : Int)
  | str (s : String)
  | arr (elems : List Json)
  | obj (fields : List (String × Json))

/-- JS truthiness of a parsed JSON value. -/
def jsTruthy : Json → Bool
  | .null => false
  | .bool b => b
  | .num n => !(n == 0)
  | .str s => !(s == "")
  | .arr _ => true
  | .obj _ => true

/-- JS `typeof v === "object"` (arrays and `null` included). -/
def typeofObject : Json → Bool
  | .obj _ => true
  | .arr _ => true
  | .null => true
  | _ => false

def isJsonArray : Json → Bool
  | .arr _ => true
  | _ => false

def isJsonNum : Json → Bool
  | .num _ => true
  | _ => false

def isJsonStr : Json → Bool
  | .str _ => true
  | _ => false

/-! ## Zod schemas (`src/core/schema.ts`) -/

/-- `zTensorDataType`: the 11-member dtype enum actually present in the
schema source. -/
inductive TensorDataType where
  | F32 | F16 | BF16 | I8 | I16 | I32 | I64 | U8 | U16 | U32 | U64
deriving DecidableEq

/-- Acceptance of a JSON value by `zTensorDataType`. -/
def parseDtype : Json → Option TensorDataType
  | .str "F32" => some .F32
  | .str "F16" => some .F16
  | .str "BF16" => some .BF16
  | .str "I8" => some .I8
  | .str "I16" => some .I16
  | .str "I32" => some .I32
  | .str "I64" => some .I64
  | .str "U8" => some .U8
  | .str "U16" => some .U16
  | .str "U32" => some .U32
  | .str "U64" => some .U64
  | _ => none

/-- `zRawTensorInfo`: an object with `dtype` in the enum, `shape` an array of
numbers and `data_offsets` a 2-tuple of numbers (unknown keys are stripped by
zod, hence ignored here). -/
def validRawTensorInfo (j : Json) : Bool :=
  match j with
  | .obj fields =>
    (match List.lookup "dtype" fields with
     | some d => (parseDtype d).isSome
     | none => false) &&
    (match List.lookup "shape" fields with
     | some (.arr xs) => xs.all isJsonNum
     | _ => false) &&
    (match List.lookup "data_offsets" fields with
     | some (.arr [a, b]) => isJsonNum a && isJsonNum b
     | _ => false)
  | _ => false

/-- `zRawMetadata`: `z.record(z.string(), z.string())`. -/
def validRawMetadata (j : Json) : Bool :=
  match j with
  | .obj fields => fields.all fun e => isJsonStr e.2
  | _ => false

/-- The per-entry union `z.union([zRawTensorInfo, zRawMetadata])`. -/
def validHeaderEntry (j : Json) : Bool :=
  validRawTensorInfo j || validRawMetadata j

/-- `zSafetensorsHeaderData`: a record whose every value satisfies the union,
refined so a truthy `__metadata__` is a non-array object.  On failure the
error carries the first offending key (zod reports issues under that key's
path); a non-object root yields the empty key. -/
def zSafetensorsHeaderData (j : Json) : Except String Unit :=
  match j with
  | .obj fields =>
    match fields.find? (fun e => !(validHeaderEntry e.2)) with
    | some e => .error e.1
    | none =>
      match List.lookup "__metadata__" fields with
      | some m =>
        if jsTruthy m then
          if typeofObject m && !(isJsonArray m) then .ok () else .error "__metadata__"
        else .ok ()
      | none => .ok ()
  | _ => .error ""

/-! ## Header reading (`readHeaderSize`, `parseHeader`) -/

/-- The error kinds of the header stage; each constructor corresponds to one
distinct throw site of the source. -/
inductive HeaderError where
  | invalidFormat
  | headerTooLarge
  | invalidJson
  | validationError (key : String)
deriving DecidableEq

def MAX_HEADER_SIZE : Nat := 100 * 1024 * 1024

/-- Little-endian value of a byte list. -/
def leValue (bs : List Nat) : Nat := bs.foldr (fun b acc => b + 256 * acc) 0

/-- `low + high * 0x100000000` of the two `getUint32` reads. -/
def headerSizeOf (buf : List Nat) : Nat :=
  leValue (buf.take 4) + 4294967296 * leValue ((buf.drop 4).take 4)

/-- `readHeaderSize`: an 8-byte little-endian size prefix, bounded by 100 MiB. -/
def readHeaderSize (buf : List Nat) : Except HeaderError Nat :=
  if buf.length < 8 then .error .invalidFormat
  else if headerSizeOf buf > MAX_HEADER_SIZE then .error .headerTooLarge
  else .ok (headerSizeOf buf)

/-- `parseHeader`: size prefix, completeness check, UTF-8 decode + `JSON.parse`
(the abstract `jsonOfBytes`, `none` = throw), then schema validation. -/
def parseHeader (jsonOfBytes : List Nat → Option Json) (buf : List Nat) :
    Except HeaderError (Nat × Json) :=
  match readHeaderSize buf with
  | .error e => .error e
  | .ok size =>
    if buf.length < 8 + size then .error .invalidFormat
    else
      match jsonOfBytes ((buf.drop 8).take size) with
      | none => .error .invalidJson
      | some data =>
        match zSafetensorsHeaderData data with
        | .error k => .error (.validationError k)
        | .ok _ => .ok (size, data)

/-! ## Model classification (`detectModelType`) -/

inductive ModelType where
  | checkpoint | lora | vae | controlnet | text_encoder | embedding
  | diffusion_model | unknown
deriving DecidableEq

def hasLoraNames (tensorNames : List String) : Bool :=
  tensorNames.any fun n =>
    jsIncludes n "lora_" &&
    (jsIncludes n ".alpha" || jsIncludes n ".lora_down" || jsIncludes n ".lora_up")

def hasVAENames (tensorNames : List String) : Bool :=
  tensorNames.any fun n => jsStartsWith n "decoder." || jsStartsWith n "encoder."

def hasUNetNames (tensorNames : List String) : Bool :=
  tensorNames.any fun n => jsIncludes n "diffusion_model" || jsIncludes n "unet"

def hasControlNetNames (tensorNames : List String) : Bool :=
  tensorNames.any fun n =>
    jsIncludes n "control_" || (jsIncludes n "input_blocks" && jsIncludes n "zero_convs")

def hasTextModelNames (tensorNames : List String) : Bool :=
  tensorNames.any fun n => jsIncludes n "text_model" || jsIncludes n "text_encoder"

def hasCondStageNames (tensorNames : List String) : Bool :=
  tensorNames.any fun n => jsIncludes n "cond_stage_model"

def hasFirstStageNames (tensorNames : List String) : Bool :=
  tensorNames.any fun n => jsIncludes n "first_stage_model"

/-- The metadata-architecture hint block of `detectModelType` (the source
lower-cases the value, then runs the substring tests in order; falling out of
every test continues with tensor-name analysis). -/
def archHint (a : String) : Option ModelType :=
  let arch := jsToLower a
  if jsIncludes arch "/lora" then some .lora
  else if jsIncludes arch "vae" then some .vae
  else if jsIncludes arch "controlnet" then some .controlnet
  else if jsIncludes arch "text_encoder" || jsIncludes arch "clip" then some .text_encoder
  else none

/-- `detectModelType(tensorNames, metadata?)`. -/
def detectModelType (tensorNames : List String)
    (metadata : Option (List (String × String)) := none) : ModelType :=
  let fromNames : ModelType :=
    if hasLoraNames tensorNames then .lora
    else if hasVAENames tensorNames && !hasUNetNames tensorNames then .vae
    else if hasControlNetNames tensorNames then .controlnet
    else if hasTextModelNames tensorNames && !hasUNetNames tensorNames then .text_encoder
    else if hasUNetNames tensorNames &&
        (hasCondStageNames tensorNames || hasFirstStageNames tensorNames ||
         hasTextModelNames tensorNames) then .checkpoint
    else if decide (tensorNames.length ≤ 5) &&
        tensorNames.any (fun n => jsIncludes n "emb" || n == "weight") then .embedding
    else if hasUNetNames tensorNames then .diffusion_model
    else .unknown
  match metadata with
  | some md =>
    match List.lookup "modelspec.architecture" md with
    | some a =>
      if a == "" then fromNames
      else match archHint a with
        | some t => t
        | none => fromNames
    | none => fromNames
  | none => fromNames

/-! ## LoRA extraction (`extractLoRATargets`, `extractTriggerWords`) -/

inductive LoRATarget where
  | clipL | clipG | unet
deriving DecidableEq

/-- `extractLoRATargets`: prefix scan collecting into a `Set`, returned in
first-seen order. -/
def extractLoRATargets (tensorNames : List String) : List LoRATarget :=
  tensorNames.foldl
    (fun acc n =>
      if jsStartsWith n "lora_te1_" then addIfAbsent acc .clipL
      else if jsStartsWith n "lora_te2_" then addIfAbsent acc .clipG
      else if jsStartsWith n "lora_unet_" then addIfAbsent acc .unet
      else acc)
    []

/-- Comparison key of the trigger-word sort; the JS comparator `b - a` is
only meaningful on numbers, and the theorems assume numeric counts. -/
def sortKeyJson : Json → Int
  | .num n => n
  | _ => 0

/-- The own-enumerable entries `Object.assign` copies from a value whose
`typeof` is `"object"` and that is not `null`. -/
def jsEntriesOf : Json → Option (List (String × Json))
  | .obj f => some f
  | .arr xs => some (xs.enum.map fun e => (toString e.1, e.2))
  | _ => none

/-- JS `Object.values` (a primitive string contributes its characters). -/
def jsValues : Json → List Json
  | .obj f => f.map Prod.snd
  | .arr xs => xs
  | .str s => s.data.map fun c => .str ⟨[c]⟩
  | _ => []

/-- The `allTags` merge of `extractTriggerWords`: fold `Object.assign` over
all category values. -/
def mergeAllTags (parsed : Json) : List (String × Json) :=
  (jsValues parsed).foldl
    (fun acc cat =>
      match jsEntriesOf cat with
      | some fs => jsAssign acc fs
      | none => acc)
    []

/-- `extractTriggerWords` after `JSON.parse` has produced a value. -/
def extractTriggerWordsParsed (parsed : Option Json) (maxWords : Int := 5) :
    List String :=
  match parsed with
  | none => []
  | some p =>
    (jsSlice (sortByDesc (fun e => sortKeyJson e.2) (mergeAllTags p)) maxWords).map
      Prod.fst

/-- `extractTriggerWords(tagFrequency?, maxWords = 5)`; `jsonParse` stands for
`JSON.parse`, with `none` for a throw (caught, yielding `[]`). -/
def extractTriggerWords (jsonParse : String → Option Json)
    (tagFrequency : Option String) (maxWords : Int := 5) : List String :=
  match tagFrequency with
  | none => []
  | some s => if s == "" then [] else extractTriggerWordsParsed (jsonParse s) maxWords

/-! ## Metadata field parsing (`parseMetadata`) -/

structure ModelSpecMetadata where
  sai_model_spec : Option String := none
  architecture : Option String := none
  implementation : Option String := none
  title : Option String := none
  description : Option String := none
  author : Option String := none
  date : Option String := none
  resolution : Option String := none
  prediction_type : Option String := none
  encoder_layer : Option String := none
deriving DecidableEq

structure TrainingMetadata where
  base_model_version : Option String := none
  num_train_images : Option Int := none
  num_epochs : Option Int := none
  network_dim : Option Int := none
  network_alpha : Option Int := none
  clip_skip : Option Int := none
  learning_rate : Option JsNum := none
  noise_offset : Option JsNum := none
  caption_dropout_rate : Option JsNum := none
  gradient_checkpointing : Option Bool := none
  dataset_dirs : Option Json := none
  tag_frequency : Option Json := none
  optimizer : Option String := none
  lr_scheduler : Option String := none
  training_started_at : Option String := none
  training_finished_at : Option String := none
  mixed_precision : Option String := none

structure ModelHashes where
  model_hash : Option String := none
  legacy_hash : Option String := none
  sd_model_hash : Option String := none
  new_sd_model_hash : Option String := none
deriving DecidableEq

structure ParsedMetadata where
  modelSpec : ModelSpecMetadata := {}
  training : TrainingMetadata := {}
  hashes : ModelHashes := {}

/-- One iteration of the `parseMetadata` loop: `modelspec.` fields first,
then the four exact hash keys, then the `ss_` training-field switch. -/
def metadataStep (jsonParse : String → Option Json) (st : ParsedMetadata) :
    String × String → ParsedMetadata
  | (k, v) =>
  if jsStartsWith k "modelspec." then
    match k.drop 10 with
    | "sai_model_spec" => { st with modelSpec.sai_model_spec := some v }
    | "architecture" => { st with modelSpec.architecture := some v }
    | "implementation" => { st with modelSpec.implementation := some v }
    | "title" => { st with modelSpec.title := some v }
    | "description" => { st with modelSpec.description := some v }
    | "author" => { st with modelSpec.author := some v }
    | "date" => { st with modelSpec.date := some v }
    | "resolution" => { st with modelSpec.resolution := some v }
    | "prediction_type" => { st with modelSpec.prediction_type := some v }
    | "encoder_layer" => { st with modelSpec.encoder_layer := some v }
    | _ => st
  else if k == "sshs_model_hash" then { st with hashes.model_hash := some v }
  else if k == "sshs_legacy_hash" then { st with hashes.legacy_hash := some v }
  else if k == "ss_sd_model_hash" then { st with hashes.sd_model_hash := some v }
  else if k == "ss_new_sd_model_hash" then { st with hashes.new_sd_model_hash := some v }
  else if jsStartsWith k "ss_" then
    match k.drop 3 with
    | "base_model_version" => { st with training.base_model_version := some v }
    | "num_train_images" =>
      match jsParseInt v with
      | some n => { st with training.num_train_images := some n }
      | none => st
    | "num_epochs" =>
      match jsParseInt v with
      | some n => { st with training.num_epochs := some n }
      | none => st
    | "network_dim" =>
      match jsParseInt v with
      | some n => { st with training.network_dim := some n }
      | none => st
    | "network_alpha" =>
      match jsParseInt v with
      | some n => { st with training.network_alpha := some n }
      | none => st
    | "clip_skip" =>
      match jsParseInt v with
      | some n => { st with training.clip_skip := some n }
      | none => st
    | "learning_rate" =>
      match jsParseFloat v with
      | some q => { st with training.learning_rate := some q }
      | none => st
    | "noise_offset" =>
      match jsParseFloat v with
      | some q => { st with training.noise_offset := some q }
      | none => st
    | "caption_dropout_rate" =>
      match jsParseFloat v with
      | some q => { st with training.caption_dropout_rate := some q }
      | none => st
    | "gradient_checkpointing" => { st with training.gradient_checkpointing := some (v == "True") }
    | "dataset_dirs" =>
      match jsonParse v with
      | some j => { st with training.dataset_dirs := some j }
      | none => st
    | "tag_frequency" =>
      match jsonParse v with
      | some j => { st with training.tag_frequency := some j }
      | none => st
    | "optimizer" => { st with training.optimizer := some v }
    | "lr_scheduler" => { st with training.lr_scheduler := some v }
    | "training_started_at" => { st with training.training_started_at := some v }
    | "training_finished_at" => { st with training.training_finished_at := some v }
    | "mixed_precision" => { st with training.mixed_precision := some v }
    | _ => st
  else st

/-- `parseMetadata(raw)`: fold the step over the entries in order. -/
def parseMetadata (jsonParse : String → Option Json)
    (raw : List (String × String)) : ParsedMetadata :=
  raw.foldl (metadataStep jsonParse) {}

/-! ## Tensor statistics (`calculateTensorStats`) -/

structure RawTensorInfo where
  dtype : TensorDataType
  shape : List Int
  data_offsets : Int × Int
deriving DecidableEq

structure TensorStats where
  tensor_count : Nat
  total_parameters : Int
  data_types : List TensorDataType
  dtype_distribution : List (TensorDataType × Int)
deriving DecidableEq

/-- `calculateTensorStats(tensors)`: one pass accumulating the dtype `Set`
(insertion order), the dtype histogram and the parameter total (product of
shape dims, empty product = 1). -/
def calculateTensorStats (tensors : List (String × RawTensorInfo)) : TensorStats :=
  let r := tensors.foldl
    (fun (st : List TensorDataType × List (TensorDataType × Int) × Int) t =>
      let dt := t.2.dtype
      (addIfAbsent st.1 dt,
       upsert st.2.1 dt (((List.lookup dt st.2.1).getD 0) + 1),
       st.2.2 + t.2.shape.foldl (· * ·) 1))
    ([], [], 0)
  { tensor_count := tensors.length
    total_parameters := r.2.2
    data_types := r.1
    dtype_distribution := r.2.1 }

/-! ## Analysis orchestration (`analyzeSafetensors`)

The validated header is taken in its typed view: each entry is a tensor
descriptor or (under `__metadata__`) a string dictionary, as in the
`SafetensorsHeaderData` type.  (A string dictionary that itself contains a
`"dtype"` key would make the TS `"dtype" in value` cast misfire and crash the
statistics pass downstream; such entries are outside the typed contract and
excluded here.) -/

inductive HeaderValue where
  | tensor (info : RawTensorInfo)
  | meta (entries : List (String × String))

structure SafetensorsHeader where
  size : Int
  data : List (String × HeaderValue)

structure AnalysisOptions where
  include_tensors : Option Bool := none
  max_tensors : Option Int := none
  extract_trigger_words : Option Bool := none
  max_trigger_words : Option Int := none

structure TensorInfo where
  name : String
  dtype : TensorDataType
  shape : List Int
  data_offsets : Int × Int
  size : Int
  parameters : Int
deriving DecidableEq

structure LoRAInfo where
  base_model : Option String
  target_components : List LoRATarget
  rank : Option Int
  alpha : Option Int
  trigger_words : List String
  module : Option String
deriving DecidableEq

structure FileStats where
  file_size : Int
  header_size : Int
  tensor_count : Nat
  total_parameters : Int
  data_types : List TensorDataType
  dtype_distribution : List (TensorDataType × Int)
deriving DecidableEq

structure Compatibility where
  pytorch : Bool
  tensorflow : Bool
  jax : Bool
  numpy : Bool
deriving DecidableEq

structure SafetensorsAnalysis where
  model_type : ModelType
  file_stats : FileStats
  raw_metadata : List (String × String)
  model_spec : ModelSpecMetadata
  training : TrainingMetadata
  hashes : ModelHashes
  lora_info : Option LoRAInfo
  tensors : List TensorInfo
  compatibility : Compatibility
  warnings : List String

/-- The JS falsy-coalescing `x || null` on an optional number: a set value of
`0` collapses to `null`. -/
def jsOrNoneInt (o : Option Int) : Option Int :=
  match o with
  | some n => if n == 0 then none else some n
  | none => none

/-- The JS falsy-coalescing `x || null` on an optional string: a set empty
string collapses to `null`. -/
def jsOrNoneStr (o : Option String) : Option String :=
  match o with
  | some s => if s == "" then none else some s
  | none => none

/-- `header.data.__metadata__ || {}` under the typed view. -/
def headerMetadata (h : SafetensorsHeader) : List (String × String) :=
  match List.lookup "__metadata__" h.data with
  | some (.meta m) => m
  | _ => []

/-- The tensor-entry extraction loop of `analyzeSafetensors`. -/
def headerTensors (h : SafetensorsHeader) : List (String × RawTensorInfo) :=
  h.data.filterMap fun e =>
    if e.1 == "__metadata__" then none
    else
      match e.2 with
      | .tensor t => some (e.1, t)
      | .meta _ => none

/-- `analyzeSafetensors(header, fileSize, options = {})`.  `jsonParse` stands
for `JSON.parse`; the `JSON.stringify`/`JSON.parse` round trip the source
performs on an already-parsed `tag_frequency` value is the identity on JSON
values and is elided. -/
def analyzeSafetensors (jsonParse : String → Option Json)
    (header : SafetensorsHeader) (fileSize : Int)
    (opts : AnalysisOptions := {}) : SafetensorsAnalysis :=
  let metadata := headerMetadata header
  let tensors := headerTensors header
  let tensorNames := tensors.map Prod.fst
  let modelType := detectModelType tensorNames (some metadata)
  let pm := parseMetadata jsonParse metadata
  let tensorStats := calculateTensorStats tensors
  let includeT : Bool := opts.include_tensors != some false
  let limit : Int :=
    match opts.max_tensors with
    | some m => if m == 0 then (tensors.length : Int) else m
    | none => (tensors.length : Int)
  let tensorInfos : List TensorInfo :=
    if includeT then
      (jsSlice tensors limit).map fun t =>
        { name := t.1
          dtype := t.2.dtype
          shape := t.2.shape
          data_offsets := t.2.data_offsets
          size := t.2.data_offsets.2 - t.2.data_offsets.1
          parameters := t.2.shape.foldl (· * ·) 1 }
    else []
  let warnings : List String :=
    if includeT && decide ((tensors.length : Int) > limit) then
      ["Tensor list truncated to " ++ toString limit ++ " items"]
    else []
  let loraInfo : Option LoRAInfo :=
    if modelType == ModelType.lora then
      let triggerWords :=
        if opts.extract_trigger_words != some false then
          extractTriggerWordsParsed
            (match pm.training.tag_frequency with
             | some tf => if jsTruthy tf then some tf else none
             | none => none)
            ((opts.max_trigger_words).getD 5)
        else []
      some
        { base_model := jsOrNoneStr pm.training.base_model_version
          target_components := extractLoRATargets tensorNames
          rank := jsOrNoneInt pm.training.network_dim
          alpha := jsOrNoneInt pm.training.network_alpha
          trigger_words := triggerWords
          module := List.lookup "ss_network_module" metadata }
    else none
  { model_type := modelType
    file_stats :=
      { file_size := fileSize
        header_size := header.size
        tensor_count := tensorStats.tensor_count
        total_parameters := tensorStats.total_parameters
        data_types := tensorStats.data_types
        dtype_distribution := tensorStats.dtype_distribution }
    raw_metadata := metadata
    model_spec := pm.modelSpec
    training := pm.training
    hashes := pm.hashes
    lora_info := loraInfo
    tensors := tensorInfos
    compatibility :=
      { pytorch := (List.lookup "format" metadata == some "pt") ||
          tensorNames.any fun n => jsIncludes n "weight"
        tensorflow := List.lookup "format" metadata == some "tf"
        jax := List.lookup "format" metadata == some "jax"
        numpy := List.lookup "format" metadata == some "numpy" }
    warnings := warnings }

/-! ## Field tables for the metadata-parsing claims -/

/-- The five integer-typed training fields. -/
def intFieldNames : List String :=
  ["num_train_images", "num_epochs", "network_dim", "network_alpha", "clip_skip"]

/-- The three float-typed training fields. -/
def floatFieldNames : List String :=
  ["learning_rate", "noise_offset", "caption_dropout_rate"]

/-- Projection of a `TrainingMetadata` integer field by its name. -/
def intFieldGet (tr : TrainingMetadata) : String → Option Int
  | "num_train_images" => tr.num_train_images
  | "num_epochs" => tr.num_epochs
  | "network_dim" => tr.network_dim
  | "network_alpha" => tr.network_alpha
  | "clip_skip" => tr.clip_skip
  | _ => none

/-- Projection of a `TrainingMetadata` float field by its name. -/
def floatFieldGet (tr : TrainingMetadata) : String → Option JsNum
  | "learning_rate" => tr.learning_rate
  | "noise_offset" => tr.noise_offset
  | "caption_dropout_rate" => tr.caption_dropout_rate
  | _ => none

/-! ## Spec-side formulation of the trigger-word contract -/

/-- Encoding of one category's tag→count fields as JSON object fields. -/
def encFields (l : List (String × Int)) : List (String × Json) :=
  l.map fun e => (e.1, Json.num e.2)

/-- Encoding of a category→(tag→count) table as the JSON value
`JSON.parse` produces from a well-formed tag-frequency string. -/
def encodeTagFreq (cats : List (String × List (String × Int))) : Json :=
  .obj (cats.map fun c => (c.1, .obj (encFields c.2)))

/-- The count the spec assigns to a tag: the value from the last category
that lists the tag (last-write-wins, not summed), absent when no category
lists it. -/
def specLastCount (cats : List (String × List (String × Int))) (a : String) :
    Option Int :=
  ((cats.map Prod.snd).filterMap (List.lookup a)).getLast?

/-- All tags of the table in first-appearance order. -/
def specTags (cats : List (String × List (String × Int))) : List String :=
  distinctFirstSeen ((cats.map fun c => c.2.map Prod.fst).flatten)

/-! ## Concrete fixtures used by the theorems -/

/-- The six-tensor input of the repository's own
"should sort data_types by usage count in descending order" test. -/
def sortTestTensors : List (String × RawTensorInfo) :=
  [("tensor1", ⟨.F32, [10], (0, 40)⟩), ("tensor2", ⟨.F16, [10], (40, 60)⟩),
   ("tensor3", ⟨.F16, [10], (60, 80)⟩), ("tensor4", ⟨.F16, [10], (80, 100)⟩),
   ("tensor5", ⟨.BF16, [10], (100, 120)⟩), ("tensor6", ⟨.BF16, [10], (120, 140)⟩)]

/-- A header descriptor whose dtype is `"BOOL"`: the repository's schema tests
and docs list `BOOL` among the accepted dtypes. -/
def boolDtypeHeader : Json :=
  .obj [("t", .obj [("dtype", .str "BOOL"), ("shape", .arr [.num 1]),
    ("data_offsets", .arr [.num 0, .num 1])])]

/-- The same descriptor with dtype `"F32"`. -/
def f32DtypeHeader : Json :=
  .obj [("t", .obj [("dtype", .str "F32"), ("shape", .arr [.num 1]),
    ("data_offsets", .arr [.num 0, .num 1])])]

/-- A header value that is a string→string object under a non-reserved key. -/
def strRecordHeader : Json :=
  .obj [("foo", .obj [("a", .str "b")])]

/-- A two-tensor LoRA header. -/
def loraHeader : SafetensorsHeader :=
  { size := 1000
    data :=
      [("__metadata__", .meta
        [("modelspec.architecture", "stable-diffusion-xl-v1-base/lora"),
         ("ss_base_model_version", "sdxl_base_v1-0"),
         ("ss_network_dim", "32")]),
       ("lora_te1_text_model.layer.weight", .tensor ⟨.F16, [768, 32], (0, 49152)⟩),
       ("lora_unet_input_blocks.weight", .tensor ⟨.F16, [320, 32], (49152, 69632)⟩)] }

/-- A LoRA header whose `ss_network_dim` metadata string is `"0"`. -/
def zeroDimLoraHeader : SafetensorsHeader :=
  { size := 100
    data :=
      [("__metadata__", .meta
        [("modelspec.architecture", "x/lora"), ("ss_network_dim", "0")]),
       ("t", .tensor ⟨.F16, [2], (0, 4)⟩)] }

/-- A JSON parser stub standing in for `JSON.parse` where its behaviour is
irrelevant to the conclusion. -/
def noParse : String → Option Json := fun _ => none

/-- The byte-level analogue of `noParse` for the header-reading stage. -/
def noParseBytes : List Nat → Option Json := fun _ => none

/-- A two-category tag-frequency table with an overlapping tag. -/
def triggerCats : List (String × List (String × Int)) :=
  [("cat1", [("tag1", 50), ("tag2", 100)]),
   ("cat2", [("tag3", 150), ("tag2", 70)])]

/-- A parser mapping the string `"TF"` to the encoded `triggerCats` table. -/
def triggerParse : String → Option Json :=
  fun s => if s == "TF" then some (encodeTagFreq triggerCats) else none

/-- A raw metadata dictionary exercising set, unparsable and absent numeric
fields. -/
def numericFieldsRaw : List (String × String) :=
  [("ss_network_dim", "32"), ("ss_clip_skip", "x"),
   ("ss_learning_rate", "0.0001"), ("ss_noise_offset", "oops")]

/-! ## Claim C1 -/

/-- Claim C1 (refuted by the schema source, which contradicts the
repository's own schema tests and docs): the implemented `zTensorDataType`
enum has only 11 members, so a descriptor with dtype `BOOL`, `F64`,
`F8_E5M2` or `F8_E4M3` is rejected by header validation instead of being
accepted, while the same descriptor with `F32` passes. -/
theorem claim_C1_missingDtypesRejected :
    parseDtype (.str "BOOL") = none ∧ parseDtype (.str "F64") = none ∧
    parseDtype (.str "F8_E5M2") = none ∧ parseDtype (.str "F8_E4M3") = none ∧
    zSafetensorsHeaderData boolDtypeHeader = .error "t" ∧
    zSafetensorsHeaderData f32DtypeHeader = .ok () := by decide

/-! ## Claim C2 -/

/-- Claim C2, counterexample: a non-`__metadata__` key whose value is a
string→string object — not a valid tensor descriptor — is accepted by
`zSafetensorsHeaderData` (the per-entry union admits `zRawMetadata` under
every key), contradicting the claim that validation must fail there. -/
theorem claim_C2_counterexample :
    zSafetensorsHeaderData strRecordHeader = .ok () ∧
    validRawTensorInfo (.obj [("a", .str "b")]) = false := by decide

/-- Claim C2 as amended: validation fails, naming an offending key, exactly
when some entry's value is neither a valid tensor descriptor nor a
string→string object; a string→string object is accepted under any key, not
only `__metadata__`. -/
theorem claim_C2_amended_unionFailureReported
    (fields : List (String × Json)) (k : String) (v : Json)
    (hmem : (k, v) ∈ fields) (hbad : validHeaderEntry v = false) :
    ∃ k2 v2, zSafetensorsHeaderData (.obj fields) = .error k2 ∧
      (k2, v2) ∈ fields ∧ validHeaderEntry v2 = false := by
  have hfind : (fields.find? fun e => !(validHeaderEntry e.2)).isSome := by
    rw [List.find?_isSome]
    exact ⟨(k, v), hmem, by simp [hbad]⟩
  obtain ⟨e, he⟩ := Option.isSome_iff_exists.mp hfind
  refine ⟨e.1, e.2, ?_, ?_, ?_⟩
  · simp only [zSafetensorsHeaderData, he]
  · simpa using List.mem_of_find?_eq_some he
  · have h := List.find?_some he
    simpa using h

/-- Witness for the amended Claim C2 at a concrete offending entry. -/
theorem claim_C2_amended_witness :
    ∃ k2 v2, zSafetensorsHeaderData (.obj [("bad", Json.num 3)]) = .error k2 ∧
      (k2, v2) ∈ [("bad", Json.num 3)] ∧ validHeaderEntry v2 = false :=
  claim_C2_amended_unionFailureReported [("bad", Json.num 3)] "bad" (Json.num 3)
    (List.mem_singleton.mpr rfl) (by decide)

/-! ## Claim C3 -/

/-- Claim C3: a buffer shorter than 8 bytes fails with `InvalidFormat`
(both in `readHeaderSize` and in `parseHeader`), and a size prefix above the
100 MiB ceiling fails with `HeaderTooLarge` for every possible behaviour of
the JSON-parsing stage, i.e. before any JSON parsing is attempted. -/
theorem claim_C3_headerSizeGuards :
    (∀ buf : List Nat, buf.length < 8 →
      readHeaderSize buf = .error .invalidFormat) ∧
    (∀ (jp : List Nat → Option Json) (buf : List Nat), buf.length < 8 →
      parseHeader jp buf = .error .invalidFormat) ∧
    (∀ (jp : List Nat → Option Json) (buf : List Nat), 8 ≤ buf.length →
      MAX_HEADER_SIZE < headerSizeOf buf →
      parseHeader jp buf = .error .headerTooLarge) := by
  refine ⟨?_, ?_, ?_⟩
  · intro buf h
    simp [readHeaderSize, h]
  · intro jp buf h
    simp [parseHeader, readHeaderSize, h]
  · intro jp buf h1 h2
    simp [parseHeader, readHeaderSize, Nat.not_lt.mpr h1, h2]

/-- Witness for Claim C3 at concrete buffers (the 8-byte prefix
`[0,0,0,0,1,0,0,0]` encodes 2^32 > 100 MiB). -/
theorem claim_C3_witness :
    readHeaderSize [] = .error .invalidFormat ∧
    parseHeader noParseBytes [] = .error .invalidFormat ∧
    parseHeader noParseBytes [0, 0, 0, 0, 1, 0, 0, 0] = .error .headerTooLarge :=
  ⟨claim_C3_headerSizeGuards.1 [] (by decide),
   claim_C3_headerSizeGuards.2.1 noParseBytes [] (by decide),
   claim_C3_headerSizeGuards.2.2 noParseBytes [0, 0, 0, 0, 1, 0, 0, 0]
     (by decide) (by decide)⟩

/-! ## Claim C4 -/

/-- Claim C4 (refuted by the source, which contradicts the repository's own
test "should sort data_types by usage count in descending order"): on the
test's six-tensor input — counts F16 ↦ 3, BF16 ↦ 2, F32 ↦ 1 —
`calculateTensorStats` returns `data_types` in first-appearance order
`[F32, F16, BF16]` (it is `Array.from` of the insertion-ordered `Set`),
not the descending-count order `[F16, BF16, F32]` required by the claim and
expected by the test; the histogram itself is correct. -/
theorem claim_C4_dataTypesInsertionOrder :
    (calculateTensorStats sortTestTensors).data_types = [.F32, .F16, .BF16] ∧
    (calculateTensorStats sortTestTensors).dtype_distribution
      = [(.F32, 1), (.F16, 3), (.BF16, 2)] ∧
    ([.F32, .F16, .BF16] : List TensorDataType) ≠ [.F16, .BF16, .F32] := by decide

/-! ## Claim C5 -/

/-- Claim C5: `detectModelType` evaluates its rules in the listed order with
first match winning — a metadata architecture hint decides the result no
matter what the tensor names are, and the checkpoint rule fires before the
embedding fallback: whenever no earlier rule applies (no LoRA or ControlNet
name pattern) and a UNet name occurs together with a cond/first-stage or
text-model name, the result is `checkpoint`, with no side condition about
tensor count or `emb` substrings; concretely, a two-tensor list with a
`diffusion_model` name and a `cond_stage_model` name containing `emb`
classifies as `checkpoint`, not `embedding`. -/
theorem claim_C5_ruleOrder :
    (∀ (tensorNames altNames : List String) (md : List (String × String))
        (a : String) (t : ModelType),
      List.lookup "modelspec.architecture" md = some a → a ≠ "" →
      archHint a = some t →
      detectModelType tensorNames (some md) = t ∧
        detectModelType altNames (some md) = t) ∧
    (∀ tensorNames : List String,
      hasLoraNames tensorNames = false →
      hasControlNetNames tensorNames = false →
      hasUNetNames tensorNames = true →
      (hasCondStageNames tensorNames || hasFirstStageNames tensorNames ||
        hasTextModelNames tensorNames) = true →
      detectModelType tensorNames none = .checkpoint) ∧
    detectModelType
      ["model.diffusion_model.input_blocks.0.0.weight", "cond_stage_model.emb.weight"]
      none = .checkpoint := by
  refine ⟨?_, ?_, by decide⟩
  · intro tensorNames altNames md a t h1 h2 h3
    have hne : (a == "") = false := by
      simp [h2]
    constructor <;> simp [detectModelType, h1, hne, h3]
  · intro tensorNames h1 h2 h3 h4
    simp [detectModelType, h1, h2, h3, h4]

/-- Witness for Claim C5 at concrete inputs. -/
theorem claim_C5_witness :
    (detectModelType ["z"] (some [("modelspec.architecture", "a/lora")]) = .lora ∧
      detectModelType [] (some [("modelspec.architecture", "a/lora")]) = .lora) ∧
    detectModelType ["x.diffusion_model.y", "cond_stage_model.z"] none = .checkpoint :=
  ⟨claim_C5_ruleOrder.1 ["z"] [] [("modelspec.architecture", "a/lora")] "a/lora"
      .lora (by decide) (by decide) (by decide),
   claim_C5_ruleOrder.2.1 ["x.diffusion_model.y", "cond_stage_model.z"]
      (by decide) (by decide) (by decide) (by decide)⟩

/-! ## Claim C10 -/

/-- Claim C10: the metadata architecture value is lower-cased before the
substring tests, so the metadata hints match case-insensitively — any
architecture whose lower-casing contains `/lora` classifies as `lora`
regardless of tensor names, in particular `stable-diffusion-xl-v1-base/LoRA` —
while tensor-name matching stays case-sensitive (`lora_x.alpha` is LoRA,
`LoRA_x.Alpha` is not). -/
theorem claim_C10_archLowerCased :
    (∀ (tensorNames : List String) (md : List (String × String)) (a : String),
      List.lookup "modelspec.architecture" md = some a → a ≠ "" →
      jsIncludes (jsToLower a) "/lora" = true →
      detectModelType tensorNames (some md) = .lora) ∧
    detectModelType []
      (some [("modelspec.architecture", "stable-diffusion-xl-v1-base/LoRA")])
      = .lora ∧
    detectModelType ["lora_x.alpha"] none = .lora ∧
    detectModelType ["LoRA_x.Alpha"] none = .unknown := by
  refine ⟨?_, by decide, by decide, by decide⟩
  intro tensorNames md a h1 h2 h3
  have hne : (a == "") = false := by
    simp [h2]
  simp [detectModelType, h1, hne, archHint, h3]

/-- Witness for Claim C10's universally quantified part. -/
theorem claim_C10_witness :
    detectModelType ["w"] (some [("modelspec.architecture", "X/LoRA")]) = .lora :=
  claim_C10_archLowerCased.1 ["w"] [("modelspec.architecture", "X/LoRA")] "X/LoRA"
    (by decide) (by decide) (by decide)

/-! ## Claim C6 -/

/-- Claim C6, counterexample: with `max_tensors = 0` the source's
`options.max_tensors || tensors.length` treats the limit as "all", so on a
two-tensor header the returned list has length 2, not `min 0 2 = 0`, and no
truncation warning is emitted even though `min(max_tensors, tensor_count)`
differs from the tensor count. -/
theorem claim_C6_counterexample :
    (analyzeSafetensors noParse loraHeader 100000
      { max_tensors := some 0 }).tensors.length = 2 ∧
    (headerTensors loraHeader).length = 2 ∧
    min 0 2 ≠ 2 ∧
    (analyzeSafetensors noParse loraHeader 100000
      { max_tensors := some 0 }).warnings = [] := by decide

/-- Claim C6 as amended: for every `max_tensors = m` with `m ≥ 1` (a set
value of `0` is instead treated as "no limit") and tensors included, the
returned tensor list has length `min m tensor_count`, the warnings list is
exactly the one documented truncation string iff truncation occurred, and
every `file_stats` statistic is computed over the full tensor set. -/
theorem claim_C6_amended_truncation (jp : String → Option Json)
    (header : SafetensorsHeader) (fs : Int) (opts : AnalysisOptions) (m : Int)
    (hm : opts.max_tensors = some m) (h1 : 1 ≤ m)
    (hinc : opts.include_tensors ≠ some false) :
    (analyzeSafetensors jp header fs opts).tensors.length
      = min m.toNat (headerTensors header).length ∧
    ((analyzeSafetensors jp header fs opts).warnings
      = if m.toNat < (headerTensors header).length then
          ["Tensor list truncated to " ++ toString m ++ " items"]
        else []) ∧
    (analyzeSafetensors jp header fs opts).file_stats.tensor_count
      = (headerTensors header).length ∧
    (analyzeSafetensors jp header fs opts).file_stats.total_parameters
      = (calculateTensorStats (headerTensors header)).total_parameters ∧
    (analyzeSafetensors jp header fs opts).file_stats.data_types
      = (calculateTensorStats (headerTensors header)).data_types ∧
    (analyzeSafetensors jp header fs opts).file_stats.dtype_distribution
      = (calculateTensorStats (headerTensors header)).dtype_distribution := by
  have hincb : (opts.include_tensors != some false) = true := bne_iff_ne.mpr hinc
  have hm0 : (m == 0) = false := by
    simp only [beq_eq_false_iff_ne, ne_eq]
    omega
  have hslice : jsSlice (headerTensors header) m
      = (headerTensors header).take m.toNat := by
    unfold jsSlice
    rw [if_neg (by omega)]
  have hcond : ((headerTensors header).length : Int) > m
      ↔ m.toNat < (headerTensors header).length := by omega
  refine ⟨?_, ?_, rfl, rfl, rfl, rfl⟩
  · simp [analyzeSafetensors, hm, hm0, hincb, hslice]
  · simp only [analyzeSafetensors, hm, hm0, hincb, Bool.false_eq_true, if_false,
      Bool.true_and]
    by_cases h : m.toNat < (headerTensors header).length
    · rw [if_pos (by simpa [decide_eq_true_eq] using hcond.mpr h), if_pos h]
    · rw [if_neg (by simpa [decide_eq_true_eq] using fun hh => h (hcond.mp hh)),
        if_neg h]

/-- Witness for the amended Claim C6: `max_tensors = 1` on the two-tensor
header truncates to one tensor and emits exactly the documented warning. -/
theorem claim_C6_witness :
    (analyzeSafetensors noParse loraHeader 100000
      { max_tensors := some 1 }).tensors.length
      = min (1 : Int).toNat (headerTensors loraHeader).length ∧
    ((analyzeSafetensors noParse loraHeader 100000
      { max_tensors := some 1 }).warnings
      = if (1 : Int).toNat < (headerTensors loraHeader).length then
          ["Tensor list truncated to " ++ toString (1 : Int) ++ " items"]
        else []) :=
  ⟨(claim_C6_amended_truncation noParse loraHeader 100000
      { max_tensors := some 1 } 1 rfl (by decide) (by decide)).1,
   (claim_C6_amended_truncation noParse loraHeader 100000
      { max_tensors := some 1 } 1 rfl (by decide) (by decide)).2.1⟩

/-! ## Claim C9 -/

/-- Claim C9, counterexample: a LoRA-classified header whose
`ss_network_dim` metadata is the string `"0"` parses to a set
`network_dim = 0`, yet `lora_info.rank` is the null sentinel — the source's
`training.network_dim || null` collapses a set falsy value to null,
contradicting the claim that a set field equal to 0 is copied. -/
theorem claim_C9_counterexample :
    (analyzeSafetensors noParse zeroDimLoraHeader 10).model_type = .lora ∧
    (analyzeSafetensors noParse zeroDimLoraHeader 10).training.network_dim
      = some 0 ∧
    ((analyzeSafetensors noParse zeroDimLoraHeader 10).lora_info.map (·.rank))
      = some none := by decide

/-- Claim C9 as amended: whenever the analysis classifies the file as lora,
`lora_info` is present and its `base_model`, `rank` and `alpha` are the
falsy-coalesced (`x || null`) images of the parsed TrainingMetadata's
`base_model_version`, `network_dim` and `network_alpha`: the field value when
set and non-falsy, the null sentinel when unset, set to `0`, or set to the
empty string; when the classification is not lora, `lora_info` is absent. -/
theorem claim_C9_amended_loraInfoFields (jp : String → Option Json)
    (header : SafetensorsHeader) (fs : Int) (opts : AnalysisOptions) :
    ((analyzeSafetensors jp header fs opts).model_type = .lora →
      ((analyzeSafetensors jp header fs opts).lora_info.map (·.base_model))
        = some (jsOrNoneStr
            (parseMetadata jp (headerMetadata header)).training.base_model_version) ∧
      ((analyzeSafetensors jp header fs opts).lora_info.map (·.rank))
        = some (jsOrNoneInt
            (parseMetadata jp (headerMetadata header)).training.network_dim) ∧
      ((analyzeSafetensors jp header fs opts).lora_info.map (·.alpha))
        = some (jsOrNoneInt
            (parseMetadata jp (headerMetadata header)).training.network_alpha)) ∧
    ((analyzeSafetensors jp header fs opts).model_type ≠ .lora →
      (analyzeSafetensors jp header fs opts).lora_info = none) := by
  constructor
  · intro h
    have h2 : detectModelType ((headerTensors header).map Prod.fst)
        (some (headerMetadata header)) = .lora := h
    refine ⟨?_, ?_, ?_⟩ <;> simp [analyzeSafetensors, h2]
  · intro h
    have h2 : detectModelType ((headerTensors header).map Prod.fst)
        (some (headerMetadata header)) ≠ .lora := h
    simp [analyzeSafetensors, h2]

/-- Witness for the amended Claim C9 at the concrete LoRA header (rank 32,
base model set). -/
theorem claim_C9_witness :
    ((analyzeSafetensors noParse loraHeader 1000 {}).lora_info.map (·.base_model))
      = some (jsOrNoneStr
          (parseMetadata noParse (headerMetadata loraHeader)).training.base_model_version) ∧
    ((analyzeSafetensors noParse loraHeader 1000 {}).lora_info.map (·.rank))
      = some (jsOrNoneInt
          (parseMetadata noParse (headerMetadata loraHeader)).training.network_dim) ∧
    ((analyzeSafetensors noParse loraHeader 1000 {}).lora_info.map (·.alpha))
      = some (jsOrNoneInt
          (parseMetadata noParse (headerMetadata loraHeader)).training.network_alpha) :=
  (claim_C9_amended_loraInfoFields noParse loraHeader 1000 {}).1 (by decide)

/-! ## Claim C8: supporting lemmas -/

/-- A string that starts with `p` is `p` followed by its remainder. -/
theorem startsWith_drop (k p : String) (h : jsStartsWith k p = true) :
    p ++ k.drop p.length = k := by
  obtain ⟨t, ht⟩ := List.isPrefixOf_iff_prefix.mp h
  apply String.ext
  rw [String.data_append, String.data_drop, ← ht,
    show p.length = p.data.length from rfl, List.drop_left]

theorem metadataStep_set_num_train_images (jp : String → Option Json)
    (st : ParsedMetadata) (v : String) :
    metadataStep jp st ("ss_num_train_images", v)
      = (match jsParseInt v with
         | some n => { st with training.num_train_images := some n }
         | none => st) := by
  rw [metadataStep]
  rw [if_neg (by decide), if_neg (by decide), if_neg (by decide),
    if_neg (by decide), if_neg (by decide), if_pos (by decide)]
  rfl

theorem metadataStep_set_num_epochs (jp : String → Option Json)
    (st : ParsedMetadata) (v : String) :
    metadataStep jp st ("ss_num_epochs", v)
      = (match jsParseInt v with
         | some n => { st with training.num_epochs := some n }
         | none => st) := by
  rw [metadataStep]
  rw [if_neg (by decide), if_neg (by decide), if_neg (by decide),
    if_neg (by decide), if_neg (by decide), if_pos (by decide)]
  rfl

theorem metadataStep_set_network_dim (jp : String → Option Json)
    (st : ParsedMetadata) (v : String) :
    metadataStep jp st ("ss_network_dim", v)
      = (match jsParseInt v with
         | some n => { st with training.network_dim := some n }
         | none => st) := by
  rw [metadataStep]
  rw [if_neg (by decide), if_neg (by decide), if_neg (by decide),
    if_neg (by decide), if_neg (by decide), if_pos (by decide)]
  rfl

theorem metadataStep_set_network_alpha (jp : String → Option Json)
    (st : ParsedMetadata) (v : String) :
    metadataStep jp st ("ss_network_alpha", v)
      = (match jsParseInt v with
         | some n => { st with training.network_alpha := some n }
         | none => st) := by
  rw [metadataStep]
  rw [if_neg (by decide), if_neg (by decide), if_neg (by decide),
    if_neg (by decide), if_neg (by decide), if_pos (by decide)]
  rfl

theorem metadataStep_set_clip_skip (jp : String → Option Json)
    (st : ParsedMetadata) (v : String) :
    metadataStep jp st ("ss_clip_skip", v)
      = (match jsParseInt v with
         | some n => { st with training.clip_skip := some n }
         | none => st) := by
  rw [metadataStep]
  rw [if_neg (by decide), if_neg (by decide), if_neg (by decide),
    if_neg (by decide), if_neg (by decide), if_pos (by decide)]
  rfl

theorem metadataStep_set_learning_rate (jp : String → Option Json)
    (st : ParsedMetadata) (v : String) :
    metadataStep jp st ("ss_learning_rate", v)
      = (match jsParseFloat v with
         | some q => { st with training.learning_rate := some q }
         | none => st) := by
  rw [metadataStep]
  rw [if_neg (by decide), if_neg (by decide), if_neg (by decide),
    if_neg (by decide), if_neg (by decide), if_pos (by decide)]
  rfl

theorem metadataStep_set_noise_offset (jp : String → Option Json)
    (st : ParsedMetadata) (v : String) :
    metadataStep jp st ("ss_noise_offset", v)
      = (match jsParseFloat v with
         | some q => { st with training.noise_offset := some q }
         | none => st) := by
  rw [metadataStep]
  rw [if_neg (by decide), if_neg (by decide), if_neg (by decide),
    if_neg (by decide), if_neg (by decide), if_pos (by decide)]
  rfl

theorem metadataStep_set_caption_dropout_rate (jp : String → Option Json)
    (st : ParsedMetadata) (v : String) :
    metadataStep jp st ("ss_caption_dropout_rate", v)
      = (match jsParseFloat v with
         | some q => { st with training.caption_dropout_rate := some q }
         | none => st) := by
  rw [metadataStep]
  rw [if_neg (by decide), if_neg (by decide), if_neg (by decide),
    if_neg (by decide), if_neg (by decide), if_pos (by decide)]
  rfl

/-- The step at the key `ss_<name>` of an integer field stores exactly
`parseInt`'s result, leaving the field untouched on parse failure. -/
theorem metadataStep_set_int (jp : String → Option Json) (st : ParsedMetadata)
    (v name : String) (hname : name ∈ intFieldNames) :
    intFieldGet (metadataStep jp st ("ss_" ++ name, v)).training name
      = (match jsParseInt v with
         | some n => some n
         | none => intFieldGet st.training name) := by
  fin_cases hname
  · rw [show ("ss_" ++ "num_train_images" : String) = "ss_num_train_images" from rfl,
      metadataStep_set_num_train_images]
    cases jsParseInt v <;> rfl
  · rw [show ("ss_" ++ "num_epochs" : String) = "ss_num_epochs" from rfl,
      metadataStep_set_num_epochs]
    cases jsParseInt v <;> rfl
  · rw [show ("ss_" ++ "network_dim" : String) = "ss_network_dim" from rfl,
      metadataStep_set_network_dim]
    cases jsParseInt v <;> rfl
  · rw [show ("ss_" ++ "network_alpha" : String) = "ss_network_alpha" from rfl,
      metadataStep_set_network_alpha]
    cases jsParseInt v <;> rfl
  · rw [show ("ss_" ++ "clip_skip" : String) = "ss_clip_skip" from rfl,
      metadataStep_set_clip_skip]
    cases jsParseInt v <;> rfl

/-- The float analogue of `metadataStep_set_int`. -/
theorem metadataStep_set_float (jp : String → Option Json) (st : ParsedMetadata)
    (v name : String) (hname : name ∈ floatFieldNames) :
    floatFieldGet (metadataStep jp st ("ss_" ++ name, v)).training name
      = (match jsParseFloat v with
         | some q => some q
         | none => floatFieldGet st.training name) := by
  fin_cases hname
  · rw [show ("ss_" ++ "learning_rate" : String) = "ss_learning_rate" from rfl,
      metadataStep_set_learning_rate]
    cases jsParseFloat v <;> rfl
  · rw [show ("ss_" ++ "noise_offset" : String) = "ss_noise_offset" from rfl,
      metadataStep_set_noise_offset]
    cases jsParseFloat v <;> rfl
  · rw [show ("ss_" ++ "caption_dropout_rate" : String) = "ss_caption_dropout_rate" from rfl,
      metadataStep_set_caption_dropout_rate]
    cases jsParseFloat v <;> rfl

set_option maxHeartbeats 2000000 in
/-- Any entry whose key is not `ss_<name>` leaves the integer field `name`
unchanged. -/
theorem metadataStep_preserve_int (jp : String → Option Json)
    (st : ParsedMetadata) (k v name : String) (hname : name ∈ intFieldNames)
    (hk : k ≠ "ss_" ++ name) :
    intFieldGet (metadataStep jp st (k, v)).training name
      = intFieldGet st.training name := by
  simp only [intFieldNames, List.mem_cons, List.mem_singleton, List.not_mem_nil,
    or_false] at hname
  rcases hname with rfl | rfl | rfl | rfl | rfl <;>
    (simp only [metadataStep]
     repeat' split
     all_goals try rfl
     all_goals
       (exfalso
        apply hk
        rw [← startsWith_drop k "ss_" (by assumption),
          show ("ss_" : String).length = 3 from rfl]
        congr 1))

set_option maxHeartbeats 2000000 in
/-- The float analogue of `metadataStep_preserve_int`. -/
theorem metadataStep_preserve_float (jp : String → Option Json)
    (st : ParsedMetadata) (k v name : String) (hname : name ∈ floatFieldNames)
    (hk : k ≠ "ss_" ++ name) :
    floatFieldGet (metadataStep jp st (k, v)).training name
      = floatFieldGet st.training name := by
  simp only [floatFieldNames, List.mem_cons, List.mem_singleton, List.not_mem_nil,
    or_false] at hname
  rcases hname with rfl | rfl | rfl <;>
    (simp only [metadataStep]
     repeat' split
     all_goals try rfl
     all_goals
       (exfalso
        apply hk
        rw [← startsWith_drop k "ss_" (by assumption),
          show ("ss_" : String).length = 3 from rfl]
        congr 1))

/-- Folding over entries that never use the key `ss_<name>` preserves the
integer field `name`. -/
theorem foldl_preserve_int (jp : String → Option Json) (name : String)
    (hname : name ∈ intFieldNames) :
    ∀ (raw : List (String × String)) (st : ParsedMetadata),
      ("ss_" ++ name) ∉ raw.map Prod.fst →
      intFieldGet ((raw.foldl (metadataStep jp) st).training) name
        = intFieldGet st.training name := by
  intro raw
  induction raw with
  | nil => intro st _; rfl
  | cons hd tl ih =>
    obtain ⟨k, v⟩ := hd
    intro st hmem
    simp only [List.map_cons, List.mem_cons, not_or] at hmem
    obtain ⟨h1, h2⟩ := hmem
    rw [List.foldl_cons, ih (metadataStep jp st (k, v)) h2,
      metadataStep_preserve_int jp st k v name hname (fun hc => h1 hc.symm)]

/-- The float analogue of `foldl_preserve_int`. -/
theorem foldl_preserve_float (jp : String → Option Json) (name : String)
    (hname : name ∈ floatFieldNames) :
    ∀ (raw : List (String × String)) (st : ParsedMetadata),
      ("ss_" ++ name) ∉ raw.map Prod.fst →
      floatFieldGet ((raw.foldl (metadataStep jp) st).training) name
        = floatFieldGet st.training name := by
  intro raw
  induction raw with
  | nil => intro st _; rfl
  | cons hd tl ih =>
    obtain ⟨k, v⟩ := hd
    intro st hmem
    simp only [List.map_cons, List.mem_cons, not_or] at hmem
    obtain ⟨h1, h2⟩ := hmem
    rw [List.foldl_cons, ih (metadataStep jp st (k, v)) h2,
      metadataStep_preserve_float jp st k v name hname (fun hc => h1 hc.symm)]

/-- Full characterisation of an integer training field after the metadata
fold, relative to the dictionary's unique `ss_<name>` entry. -/
theorem foldl_int_field (jp : String → Option Json) (name : String)
    (hname : name ∈ intFieldNames) :
    ∀ (raw : List (String × String)) (st : ParsedMetadata),
      (raw.map Prod.fst).Nodup →
      intFieldGet ((raw.foldl (metadataStep jp) st).training) name
        = (match List.lookup ("ss_" ++ name) raw with
           | some v =>
             match jsParseInt v with
             | some n => some n
             | none => intFieldGet st.training name
           | none => intFieldGet st.training name) := by
  intro raw
  induction raw with
  | nil => intro st _; rfl
  | cons hd tl ih =>
    obtain ⟨k, v⟩ := hd
    intro st hnd
    simp only [List.map_cons, List.nodup_cons] at hnd
    obtain ⟨hhd, htl⟩ := hnd
    rw [List.foldl_cons]
    by_cases hk : ("ss_" ++ name) = k
    · subst hk
      rw [foldl_preserve_int jp name hname tl _ hhd,
        metadataStep_set_int jp st v name hname]
      simp only [List.lookup_cons, beq_self_eq_true]
    · rw [ih (metadataStep jp st (k, v)) htl]
      have hbeq : (("ss_" ++ name) == k) = false := beq_eq_false_iff_ne.mpr hk
      simp only [List.lookup_cons, hbeq,
        metadataStep_preserve_int jp st k v name hname (fun hc => hk hc.symm)]

/-- The float analogue of `foldl_int_field`. -/
theorem foldl_float_field (jp : String → Option Json) (name : String)
    (hname : name ∈ floatFieldNames) :
    ∀ (raw : List (String × String)) (st : ParsedMetadata),
      (raw.map Prod.fst).Nodup →
      floatFieldGet ((raw.foldl (metadataStep jp) st).training) name
        = (match List.lookup ("ss_" ++ name) raw with
           | some v =>
             match jsParseFloat v with
             | some q => some q
             | none => floatFieldGet st.training name
           | none => floatFieldGet st.training name) := by
  intro raw
  induction raw with
  | nil => intro st _; rfl
  | cons hd tl ih =>
    obtain ⟨k, v⟩ := hd
    intro st hnd
    simp only [List.map_cons, List.nodup_cons] at hnd
    obtain ⟨hhd, htl⟩ := hnd
    rw [List.foldl_cons]
    by_cases hk : ("ss_" ++ name) = k
    · subst hk
      rw [foldl_preserve_float jp name hname tl _ hhd,
        metadataStep_set_float jp st v name hname]
      simp only [List.lookup_cons, beq_self_eq_true]
    · rw [ih (metadataStep jp st (k, v)) htl]
      have hbeq : (("ss_" ++ name) == k) = false := beq_eq_false_iff_ne.mpr hk
      simp only [List.lookup_cons, hbeq,
        metadataStep_preserve_float jp st k v name hname (fun hc => hk hc.symm)]

/-- All fresh integer fields start unset. -/
theorem intFieldGet_default (name : String) :
    intFieldGet ({} : TrainingMetadata) name = none := by
  unfold intFieldGet
  repeat' split
  all_goals rfl

/-- All fresh float fields start unset. -/
theorem floatFieldGet_default (name : String) :
    floatFieldGet ({} : TrainingMetadata) name = none := by
  unfold floatFieldGet
  repeat' split
  all_goals rfl

/-! ## Claim C8 -/

/-- Claim C8: over any raw metadata dictionary (keys unique, as in a JS
object), each integer training field (`num_train_images`, `num_epochs`,
`network_dim`, `network_alpha`, `clip_skip`) ends up as exactly
`parseInt` of the `ss_`-prefixed value — set precisely when the string
parses as a number, unset (never defaulted to 0) otherwise — and each float
field (`learning_rate`, `noise_offset`, `caption_dropout_rate`) likewise
with `parseFloat`; `parseMetadata` is total, so a parse failure never aborts
the analysis. -/
theorem claim_C8_numericFieldCoercion (jp : String → Option Json)
    (raw : List (String × String)) (hnd : (raw.map Prod.fst).Nodup) :
    (∀ name ∈ intFieldNames,
      intFieldGet ((parseMetadata jp raw).training) name
        = (List.lookup ("ss_" ++ name) raw).bind jsParseInt) ∧
    (∀ name ∈ floatFieldNames,
      floatFieldGet ((parseMetadata jp raw).training) name
        = (List.lookup ("ss_" ++ name) raw).bind jsParseFloat) := by
  constructor
  · intro name hname
    rw [parseMetadata, foldl_int_field jp name hname raw {} hnd]
    cases hl : List.lookup ("ss_" ++ name) raw with
    | none => simp [intFieldGet_default]
    | some v => cases h2 : jsParseInt v <;> simp [h2, intFieldGet_default]
  · intro name hname
    rw [parseMetadata, foldl_float_field jp name hname raw {} hnd]
    cases hl : List.lookup ("ss_" ++ name) raw with
    | none => simp [floatFieldGet_default]
    | some v => cases h2 : jsParseFloat v <;> simp [h2, floatFieldGet_default]

/-- Witness for Claim C8 on a concrete dictionary with a parsable integer, an
unparsable integer, a parsable float and an unparsable float. -/
theorem claim_C8_witness :
    intFieldGet ((parseMetadata noParse numericFieldsRaw).training) "network_dim"
      = (List.lookup "ss_network_dim" numericFieldsRaw).bind jsParseInt ∧
    intFieldGet ((parseMetadata noParse numericFieldsRaw).training) "clip_skip"
      = (List.lookup "ss_clip_skip" numericFieldsRaw).bind jsParseInt ∧
    floatFieldGet ((parseMetadata noParse numericFieldsRaw).training) "learning_rate"
      = (List.lookup "ss_learning_rate" numericFieldsRaw).bind jsParseFloat ∧
    floatFieldGet ((parseMetadata noParse numericFieldsRaw).training) "noise_offset"
      = (List.lookup "ss_noise_offset" numericFieldsRaw).bind jsParseFloat :=
  ⟨(claim_C8_numericFieldCoercion noParse numericFieldsRaw (by decide)).1
      "network_dim" (by decide),
   (claim_C8_numericFieldCoercion noParse numericFieldsRaw (by decide)).1
      "clip_skip" (by decide),
   (claim_C8_numericFieldCoercion noParse numericFieldsRaw (by decide)).2
      "learning_rate" (by decide),
   (claim_C8_numericFieldCoercion noParse numericFieldsRaw (by decide)).2
      "noise_offset" (by decide)⟩

/-! ## Claim C7: association-list lemmas -/

theorem lookup_upsert {κ β : Type} [BEq κ] [LawfulBEq κ]
    (l : List (κ × β)) (k : κ) (v : β) (a : κ) :
    List.lookup a (upsert l k v) = if a == k then some v else List.lookup a l := by
  induction l with
  | nil =>
    simp only [upsert, List.lookup]
    cases a == k <;> rfl
  | cons hd tl ih =>
    obtain ⟨k0, v0⟩ := hd
    by_cases h : k0 = k
    · subst h
      rw [upsert, if_pos (by simp)]
      simp only [List.lookup]
      cases a == k0 <;> rfl
    · rw [upsert, if_neg (by simpa using h)]
      simp only [List.lookup]
      cases hak : a == k0
      · rw [ih]
      · have ha2 : a = k0 := by simpa using hak
        have hk2 : (a == k) = false := by simp [ha2, h]
        rw [hk2]
        simp

theorem upsert_keys {β : Type} (l : List (String × β)) (k : String) (v : β) :
    (upsert l k v).map Prod.fst = addIfAbsent (l.map Prod.fst) k := by
  induction l with
  | nil => simp [upsert, addIfAbsent]
  | cons hd tl ih =>
    obtain ⟨k0, v0⟩ := hd
    by_cases h : k0 = k
    · subst h
      simp [upsert, addIfAbsent]
    · have hstep : upsert ((k0, v0) :: tl) k v = (k0, v0) :: upsert tl k v := by
        simp [upsert, h]
      rw [hstep, List.map_cons, ih, addIfAbsent, addIfAbsent]
      by_cases hm : k ∈ tl.map Prod.fst
      · rw [if_pos hm, if_pos (by simp [hm])]
        simp
      · rw [if_neg hm, if_neg (by simp [hm, Ne.symm h])]
        simp

theorem jsAssign_untouched {β : Type} (a : String) :
    ∀ (src tgt : List (String × β)), a ∉ src.map Prod.fst →
      List.lookup a (jsAssign tgt src) = List.lookup a tgt := by
  intro src
  induction src with
  | nil => intro tgt _; rfl
  | cons e t ih =>
    obtain ⟨k, v⟩ := e
    intro tgt hmem
    simp only [List.map_cons, List.mem_cons, not_or] at hmem
    rw [show jsAssign tgt ((k, v) :: t) = jsAssign (upsert tgt k v) t from rfl,
      ih _ hmem.2, lookup_upsert]
    simp [hmem.1]

theorem lookup_jsAssign {β : Type} (a : String) :
    ∀ (src tgt : List (String × β)), (src.map Prod.fst).Nodup →
      List.lookup a (jsAssign tgt src)
        = (List.lookup a src).or (List.lookup a tgt) := by
  intro src
  induction src with
  | nil => intro tgt _; rfl
  | cons e t ih =>
    obtain ⟨k, v⟩ := e
    intro tgt hnd
    simp only [List.map_cons, List.nodup_cons] at hnd
    obtain ⟨h1, h2⟩ := hnd
    rw [show jsAssign tgt ((k, v) :: t) = jsAssign (upsert tgt k v) t from rfl]
    by_cases ha : a = k
    · subst ha
      rw [jsAssign_untouched a t _ h1, lookup_upsert]
      simp [List.lookup]
    · have hak : (a == k) = false := by simp [ha]
      rw [ih _ h2, lookup_upsert]
      simp only [List.lookup, hak, Bool.false_eq_true, if_false]

theorem jsAssign_keys {β : Type} :
    ∀ (src tgt : List (String × β)),
      (jsAssign tgt src).map Prod.fst
        = (src.map Prod.fst).foldl addIfAbsent (tgt.map Prod.fst) := by
  intro src
  induction src with
  | nil => intro tgt; rfl
  | cons e t ih =>
    intro tgt
    rw [show jsAssign tgt (e :: t) = jsAssign (upsert tgt e.1 e.2) t from rfl,
      ih, upsert_keys, List.map_cons, List.foldl_cons]

theorem addIfAbsent_nodup {α : Type} [DecidableEq α] {l : List α} (h : l.Nodup)
    (x : α) : (addIfAbsent l x).Nodup := by
  by_cases hx : x ∈ l
  · simpa [addIfAbsent, hx] using h
  · simp [addIfAbsent, hx, List.nodup_append, h]

theorem foldl_addIfAbsent_nodup {α : Type} [DecidableEq α] :
    ∀ (l acc : List α), acc.Nodup → (l.foldl addIfAbsent acc).Nodup := by
  intro l
  induction l with
  | nil => intro acc h; exact h
  | cons x t ih => intro acc h; exact ih _ (addIfAbsent_nodup h x)

theorem getLast?_cons_or {α : Type} :
    ∀ (l : List α) (x : α), (x :: l).getLast? = l.getLast?.or (some x) := by
  intro l
  induction l with
  | nil => intro x; rfl
  | cons y t ih =>
    intro x
    rw [List.getLast?_cons_cons, ih y]
    cases t.getLast? <;> rfl

theorem lookup_mergeFold {β : Type} (a : String) :
    ∀ (catsJ : List (List (String × β))) (acc : List (String × β)),
      (∀ c ∈ catsJ, (c.map Prod.fst).Nodup) →
      List.lookup a (catsJ.foldl jsAssign acc)
        = ((catsJ.filterMap (List.lookup a)).getLast?).or (List.lookup a acc) := by
  intro catsJ
  induction catsJ with
  | nil => intro acc _; rfl
  | cons c rest ih =>
    intro acc hnd
    rw [List.foldl_cons, ih _ (fun x hx => hnd x (List.mem_cons_of_mem c hx)),
      lookup_jsAssign a c acc (hnd c (List.mem_cons_self c rest)),
      List.filterMap_cons]
    cases h : List.lookup a c with
    | none => rfl
    | some v =>
      rw [getLast?_cons_or, Option.or_assoc]

theorem mergeAllTags_encode (cats : List (String × List (String × Int))) :
    mergeAllTags (encodeTagFreq cats)
      = (cats.map fun c => encFields c.2).foldl jsAssign [] := by
  simp only [mergeAllTags, encodeTagFreq, jsValues, List.map_map, List.foldl_map]
  rfl

theorem lookup_encFields (a : String) (l : List (String × Int)) :
    List.lookup a (encFields l) = (List.lookup a l).map Json.num := by
  induction l with
  | nil => rfl
  | cons e t ih =>
    obtain ⟨k, v⟩ := e
    by_cases h : a = k
    · subst h
      simp [encFields, List.lookup]
    · have hak : (a == k) = false := by simp [h]
      simp only [encFields, List.map_cons, List.lookup, hak]
      simpa [encFields] using ih

theorem encFields_keys (l : List (String × Int)) :
    (encFields l).map Prod.fst = l.map Prod.fst := by
  simp [encFields, List.map_map]

theorem lookup_merged (cats : List (String × List (String × Int)))
    (hnd : ∀ c ∈ cats, (c.2.map Prod.fst).Nodup) (a : String) :
    List.lookup a (mergeAllTags (encodeTagFreq cats))
      = (specLastCount cats a).map Json.num := by
  rw [mergeAllTags_encode, lookup_mergeFold a _ []
    (by
      intro c hc
      obtain ⟨c0, hc0, rfl⟩ := List.mem_map.mp hc
      rw [encFields_keys]
      exact hnd c0 hc0)]
  have h1 : ∀ cs : List (String × List (String × Int)),
      List.filterMap (List.lookup a) (cs.map fun c => encFields c.2)
        = ((cs.map Prod.snd).filterMap (List.lookup a)).map Json.num := by
    intro cs
    induction cs with
    | nil => rfl
    | cons c rest ih =>
      simp only [List.map_cons, List.filterMap_cons, lookup_encFields]
      cases List.lookup a c.2 with
      | none => simpa using ih
      | some n => simpa using ih
  rw [h1 cats, List.getLast?_map, specLastCount]
  cases ((cats.map Prod.snd).filterMap (List.lookup a)).getLast? <;> rfl

theorem lookup_isSome_iff_mem {β : Type} (a : String) (l : List (String × β)) :
    (List.lookup a l).isSome ↔ a ∈ l.map Prod.fst := by
  induction l with
  | nil => simp [List.lookup]
  | cons e t ih =>
    obtain ⟨k, v⟩ := e
    by_cases h : a = k
    · subst h
      simp [List.lookup]
    · have hak : (a == k) = false := by simp [h]
      simp [List.lookup, hak, h, ih]

theorem lookup_of_mem_nodup {β : Type} (l : List (String × β))
    (hnd : (l.map Prod.fst).Nodup) (e : String × β) (he : e ∈ l) :
    List.lookup e.1 l = some e.2 := by
  induction l with
  | nil => cases he
  | cons hd t ih =>
    obtain ⟨k, v⟩ := hd
    simp only [List.map_cons, List.nodup_cons] at hnd
    rcases List.mem_cons.mp he with rfl | hm
    · simp [List.lookup]
    · have hne : e.1 ≠ k := by
        intro hc
        exact hnd.1 (hc ▸ List.mem_map_of_mem Prod.fst hm)
      have hak : (e.1 == k) = false := by simp [hne]
      simp [List.lookup, hak, ih hnd.2 hm]

/-! ## Claim C7: stable-sort lemmas -/

theorem insertByDesc_perm {α : Type} (key : α → Int) (x : α) :
    ∀ l : List α, (insertByDesc key x l).Perm (x :: l) := by
  intro l
  induction l with
  | nil => exact List.Perm.refl _
  | cons y ys ih =>
    by_cases h : key y < key x
    · simp only [insertByDesc, if_pos h]
      exact List.Perm.refl _
    · simp only [insertByDesc, if_neg h]
      exact (List.Perm.cons y ih).trans (List.Perm.swap x y ys)

theorem sortByDesc_perm_aux {α : Type} (key : α → Int) :
    ∀ (l acc : List α),
      (l.foldl (fun acc x => insertByDesc key x acc) acc).Perm (acc ++ l) := by
  intro l
  induction l with
  | nil => intro acc; simp
  | cons x t ih =>
    intro acc
    rw [List.foldl_cons]
    refine (ih _).trans ?_
    refine (List.Perm.append_right t (insertByDesc_perm key x acc)).trans ?_
    exact List.perm_middle.symm

theorem sortByDesc_perm {α : Type} (key : α → Int) (l : List α) :
    (sortByDesc key l).Perm l := by
  simpa [sortByDesc] using sortByDesc_perm_aux key l []

theorem pairwise_insertByDesc {α : Type} (key : α → Int) (x : α) :
    ∀ l : List α, List.Pairwise (fun a b => key b ≤ key a) l →
      List.Pairwise (fun a b => key b ≤ key a) (insertByDesc key x l) := by
  intro l
  induction l with
  | nil => intro _; simp [insertByDesc]
  | cons y ys ih =>
    intro hp
    rw [List.pairwise_cons] at hp
    obtain ⟨hy, hys⟩ := hp
    by_cases h : key y < key x
    · simp only [insertByDesc, if_pos h]
      refine List.Pairwise.cons ?_ (List.Pairwise.cons hy hys)
      intro z hz
      rcases List.mem_cons.mp hz with rfl | hz2
      · exact le_of_lt h
      · exact le_trans (hy z hz2) (le_of_lt h)
    · simp only [insertByDesc, if_neg h]
      refine List.Pairwise.cons ?_ (ih hys)
      intro z hz
      rcases List.mem_cons.mp ((insertByDesc_perm key x ys).mem_iff.mp hz) with rfl | hz2
      · exact le_of_not_lt h
      · exact hy z hz2

theorem sortByDesc_pairwise_aux {α : Type} (key : α → Int) :
    ∀ (l acc : List α), List.Pairwise (fun a b => key b ≤ key a) acc →
      List.Pairwise (fun a b => key b ≤ key a)
        (l.foldl (fun acc x => insertByDesc key x acc) acc) := by
  intro l
  induction l with
  | nil => intro acc h; exact h
  | cons x t ih => intro acc h; exact ih _ (pairwise_insertByDesc key x acc h)

theorem sortByDesc_pairwise {α : Type} (key : α → Int) (l : List α) :
    List.Pairwise (fun a b => key b ≤ key a) (sortByDesc key l) :=
  sortByDesc_pairwise_aux key l [] List.Pairwise.nil

/-! ## Claim C7: merged-key lemmas -/

theorem mergeFold_keys {β : Type} :
    ∀ (catsJ : List (List (String × β))) (acc : List (String × β)),
      (catsJ.foldl jsAssign acc).map Prod.fst
        = (catsJ.map fun c => c.map Prod.fst).flatten.foldl addIfAbsent
            (acc.map Prod.fst) := by
  intro catsJ
  induction catsJ with
  | nil => intro acc; rfl
  | cons c rest ih =>
    intro acc
    rw [List.foldl_cons, ih, List.map_cons, List.flatten_cons, List.foldl_append,
      jsAssign_keys]

theorem merged_keys (cats : List (String × List (String × Int))) :
    (mergeAllTags (encodeTagFreq cats)).map Prod.fst = specTags cats := by
  rw [mergeAllTags_encode, mergeFold_keys, specTags, distinctFirstSeen,
    List.map_map]
  have hf : ((fun c => List.map Prod.fst c) ∘
        fun c : String × List (String × Int) => encFields c.2)
      = fun c : String × List (String × Int) => c.2.map Prod.fst := by
    funext c
    exact encFields_keys c.2
  rw [hf]
  rfl

theorem merged_keys_nodup (cats : List (String × List (String × Int))) :
    ((mergeAllTags (encodeTagFreq cats)).map Prod.fst).Nodup := by
  rw [merged_keys, specTags, distinctFirstSeen]
  exact foldl_addIfAbsent_nodup _ [] List.nodup_nil

/-! ## Claim C7 -/

/-- Claim C7: for a tag-frequency string parsing to a category→(tag→count)
table, `extractTriggerWords` merges the categories last-write-wins (a tag's
effective count is the one from the last category listing it — counts are
never summed) and returns the top-K tags: every returned tag occurs in some
category, the result has no duplicates, its length is
`min K (number of distinct tags)`, the effective counts are
non-increasing along it, and every distinct tag left out has a count at most
that of every returned tag; a malformed (unparsable) string, an absent
string, or the empty string yields `[]`, never an error.  (The K argument
defaults to 5 in the definition, mirroring the source.) -/
theorem claim_C7_triggerWordsTopK (jp : String → Option Json) (s : String)
    (cats : List (String × List (String × Int))) (K : Int)
    (hs : s ≠ "") (hK : 0 ≤ K)
    (hparse : jp s = some (encodeTagFreq cats))
    (hnd : ∀ c ∈ cats, (c.2.map Prod.fst).Nodup) :
    (∀ t ∈ extractTriggerWords jp (some s) K, (specLastCount cats t).isSome) ∧
    (extractTriggerWords jp (some s) K).Nodup ∧
    (extractTriggerWords jp (some s) K).length
      = min K.toNat (specTags cats).length ∧
    (extractTriggerWords jp (some s) K).Pairwise
      (fun a b => (specLastCount cats b).getD 0 ≤ (specLastCount cats a).getD 0) ∧
    (∀ t, (specLastCount cats t).isSome →
      t ∉ extractTriggerWords jp (some s) K →
      ∀ u ∈ extractTriggerWords jp (some s) K,
        (specLastCount cats t).getD 0 ≤ (specLastCount cats u).getD 0) ∧
    (∀ s2, jp s2 = none → extractTriggerWords jp (some s2) K = []) ∧
    extractTriggerWords jp none K = [] ∧
    extractTriggerWords jp (some "") K = [] := by
  have hsbeq : (s == "") = false := by simp [hs]
  have hKneg : ¬(K < 0) := not_lt.mpr hK
  have hout : extractTriggerWords jp (some s) K
      = ((sortByDesc (fun e => sortKeyJson e.2)
          (mergeAllTags (encodeTagFreq cats))).take K.toNat).map Prod.fst := by
    simp only [extractTriggerWords, hsbeq, Bool.false_eq_true, if_false, hparse,
      extractTriggerWordsParsed, jsSlice, if_neg hKneg]
  have hknd := merged_keys_nodup cats
  have hperm := sortByDesc_perm (fun e : String × Json => sortKeyJson e.2)
    (mergeAllTags (encodeTagFreq cats))
  have hsortknd : ((sortByDesc (fun e : String × Json => sortKeyJson e.2)
      (mergeAllTags (encodeTagFreq cats))).map Prod.fst).Nodup :=
    (List.Perm.nodup_iff (hperm.map Prod.fst)).mpr hknd
  have hcnt : ∀ e ∈ mergeAllTags (encodeTagFreq cats),
      sortKeyJson e.2 = (specLastCount cats e.1).getD 0 := by
    intro e he
    have hl := (lookup_merged cats hnd e.1).symm.trans
      (lookup_of_mem_nodup _ hknd e he)
    cases hsp : specLastCount cats e.1 with
    | none =>
      rw [hsp] at hl
      simp at hl
    | some c =>
      rw [hsp] at hl
      simp only [Option.map_some'] at hl
      rw [Option.some.injEq] at hl
      rw [← hl]
      rfl
  refine ⟨?_, ?_, ?_, ?_, ?_, ?_, rfl, rfl⟩
  · -- every returned tag is listed by some category
    intro t ht
    rw [hout] at ht
    obtain ⟨e, hetake, rfl⟩ := List.mem_map.mp ht
    have hem : e ∈ mergeAllTags (encodeTagFreq cats) :=
      hperm.mem_iff.mp ((List.take_sublist _ _).subset hetake)
    have hl := (lookup_merged cats hnd e.1).symm.trans
      (lookup_of_mem_nodup _ hknd e hem)
    cases hsp : specLastCount cats e.1 with
    | none =>
      rw [hsp] at hl
      simp at hl
    | some c => rfl
  · -- no duplicates
    rw [hout, List.map_take]
    exact List.Nodup.sublist (List.take_sublist _ _) hsortknd
  · -- length
    have hlen : (mergeAllTags (encodeTagFreq cats)).length
        = (specTags cats).length := by
      have h := congrArg List.length (merged_keys cats)
      rwa [List.length_map] at h
    rw [hout, List.length_map, List.length_take, hperm.length_eq, hlen]
  · -- counts are non-increasing
    rw [hout, List.pairwise_map]
    have hp := List.Pairwise.sublist (List.take_sublist K.toNat _)
      (sortByDesc_pairwise (fun e : String × Json => sortKeyJson e.2)
        (mergeAllTags (encodeTagFreq cats)))
    refine hp.imp_of_mem ?_
    intro a b ha hb hr
    have ha2 : a ∈ mergeAllTags (encodeTagFreq cats) :=
      hperm.mem_iff.mp ((List.take_sublist _ _).subset ha)
    have hb2 : b ∈ mergeAllTags (encodeTagFreq cats) :=
      hperm.mem_iff.mp ((List.take_sublist _ _).subset hb)
    rw [← hcnt a ha2, ← hcnt b hb2]
    exact hr
  · -- dominance of the returned tags
    intro t hts htout u hu
    rw [hout] at htout hu
    obtain ⟨eu, heu, rfl⟩ := List.mem_map.mp hu
    obtain ⟨c, hc⟩ := Option.isSome_iff_exists.mp hts
    have htm : t ∈ (mergeAllTags (encodeTagFreq cats)).map Prod.fst := by
      rw [← lookup_isSome_iff_mem, lookup_merged cats hnd t, hc]
      rfl
    obtain ⟨et, hetm, het1⟩ := List.mem_map.mp htm
    subst het1
    have hets : et ∈ sortByDesc (fun e : String × Json => sortKeyJson e.2)
        (mergeAllTags (encodeTagFreq cats)) := hperm.mem_iff.mpr hetm
    have hsplit := List.take_append_drop K.toNat
      (sortByDesc (fun e : String × Json => sortKeyJson e.2)
        (mergeAllTags (encodeTagFreq cats)))
    have hp := sortByDesc_pairwise (fun e : String × Json => sortKeyJson e.2)
      (mergeAllTags (encodeTagFreq cats))
    rw [← hsplit] at hp
    have hcross := (List.pairwise_append.mp hp).2.2
    rcases List.mem_append.mp (by rw [hsplit]; exact hets) with hin | hin
    · exact absurd (List.mem_map_of_mem Prod.fst hin) htout
    · have hr := hcross eu heu et hin
      have heum : eu ∈ mergeAllTags (encodeTagFreq cats) :=
        hperm.mem_iff.mp ((List.take_sublist _ _).subset heu)
      rw [← hcnt et hetm, ← hcnt eu heum]
      exact hr
  · -- an unparsable string yields []
    intro s2 h2
    by_cases hs2 : (s2 == "") = true <;>
      simp [extractTriggerWords, hs2, h2, extractTriggerWordsParsed]

/-- Witness for Claim C7 on the two-category table (distinct tags
`tag1, tag2, tag3`; effective counts 50, 70 and 150 — `tag2` takes the later
category's 70, not 100 and not the sum): the top-2 extraction has length
`min 2 3` and non-increasing effective counts. -/
theorem claim_C7_witness :
    (extractTriggerWords triggerParse (some "TF") 2).length
      = min (2 : Int).toNat (specTags triggerCats).length ∧
    (extractTriggerWords triggerParse (some "TF") 2).Pairwise
      (fun a b => (specLastCount triggerCats b).getD 0
        ≤ (specLastCount triggerCats a).getD 0) :=
  ⟨(claim_C7_triggerWordsTopK triggerParse "TF" triggerCats 2
      (by decide) (by decide) rfl (by decide)).2.2.1,
   (claim_C7_triggerWordsTopK triggerParse "TF" triggerCats 2
      (by decide) (by decide) rfl (by decide)).2.2.2.1⟩

end SafetensorsInspector
